import Mathlib

/-!
# STEMCamp2025: the frame loop of `World` and the resize wrapper of `ThreeJSEngine`

A shallow embedding of `src/World.js` and `src/ThreeJSEngine.js`.

Conventions of the embedding.

* A JavaScript number is a rational (`ℚ`), and the arithmetic on numbers is a
  parameter, `Arith`, with two readings: `Arith.exact` computes exactly, and
  `Arith.float64` rounds the result of every operation to the nearest binary64
  value, ties to even, as JavaScript does. Infinities, NaN, the sign of zero and
  the limits of the binary64 exponent are outside the embedding. In the resize
  wrapper a quotient whose divisor may be zero is an `Option ℚ`, with `none` for a
  result that is not a finite number.
* An object that JavaScript mutates in place is a value that is passed in and
  returned. A method that can throw returns `Except JSError Unit × World`: the
  completion together with the state at the moment the method was left.
* The rendering library is embedded only as far as the program observes it:
  vectors, the pose of an object (position, the `rotateY` calls it has
  received), the pose of the camera (position, eye and target of the last
  `lookAt`), the set of active actions of an animation mixer, and the size and
  the calls received by the renderer.
* `World` is the state of a world object from the end of `initialize` on. The
  scene graph and the engine handle are not fields of it, since `update` and
  `#keyDown` never read or write them (`ThreeJSEngine.update` has an empty body).
-/

namespace STEMCamp

/-! ## The part of the library the program uses -/

/-- The exception a method call on `undefined` or `null` raises. -/
inductive JSError where
  | typeError
  deriving DecidableEq, Repr

/-! ### Binary64 arithmetic -/

namespace Float64

/-- The number of binary digits of `n`; any `fuel` of at least that number will do. -/
def bitLength : Nat → Nat → Nat
  | 0, _ => 0
  | fuel + 1, n => if n = 0 then 0 else bitLength fuel (n / 2) + 1

/-- The exponent of a positive quotient: the `e` with `2 ^ e ≤ n / d < 2 ^ (e + 1)`. -/
def exponent (n d : Nat) : Int :=
  let e0 : Int := (bitLength n n : Int) - (bitLength d d : Int)
  if 0 ≤ e0 then (if n < d * 2 ^ e0.toNat then e0 - 1 else e0)
  else (if n * 2 ^ (-e0).toNat < d then e0 - 1 else e0)

/-- The integer nearest to `N / D`, the even one of two that are equally near. -/
def nearest (N D : Nat) : Nat :=
  if 2 * (N % D) < D then N / D
  else if D < 2 * (N % D) then N / D + 1
  else N / D + (N / D) % 2

/-- The number `k / 2 ^ t`. -/
def scaled (k : Nat) (t : Int) : ℚ :=
  if 0 ≤ t then mkRat k (2 ^ t.toNat) else ((k * 2 ^ (-t).toNat : Nat) : ℚ)

/-- The binary64 value nearest to the positive quotient `n / d`: its 53 significant
bits are the integer nearest to `n / d * 2 ^ (52 - e)`, for `e` the exponent. -/
def roundPos (n d : Nat) : ℚ :=
  let t : Int := 52 - exponent n d
  if 0 ≤ t then scaled (nearest (n * 2 ^ t.toNat) d) t
  else scaled (nearest n (d * 2 ^ (-t).toNat)) t

/-- Rounding to the nearest binary64 value, ties to even. -/
def round (q : ℚ) : ℚ :=
  if q.num = 0 then 0
  else if q.num < 0 then -roundPos q.num.natAbs q.den
  else roundPos q.num.natAbs q.den

/-- The integer square root, found bit by bit from bit `b - 1` down. -/
def isqrtAux (n : Nat) : Nat → Nat → Nat
  | 0, r => r
  | b + 1, r =>
    if (r + 2 ^ b) * (r + 2 ^ b) ≤ n then isqrtAux n b (r + 2 ^ b) else isqrtAux n b r

/-- The integer square root of `n`. -/
def isqrt (n : Nat) : Nat := isqrtAux n (bitLength n n / 2 + 1) 0

/-- The integer nearest to the square root of `N / D`, ties to even: with `k` the
integer part of the root, the root exceeds `k + 1/2` when `4 N > (2 k + 1) ^ 2 D`. -/
def nearestSqrt (N D : Nat) : Nat :=
  let k := isqrt (N / D)
  if 4 * N < (4 * k * k + 4 * k + 1) * D then k
  else if (4 * k * k + 4 * k + 1) * D < 4 * N then k + 1
  else k + k % 2

/-- The binary64 value nearest to the square root of the positive quotient `n / d`:
`t` is chosen so that `n / d * 4 ^ t` has a root between `2 ^ 52` and `2 ^ 53`. -/
def sqrtPos (n d : Nat) : ℚ :=
  let t : Int := (105 - exponent n d) / 2
  if 0 ≤ t then scaled (nearestSqrt (n * 4 ^ t.toNat) d) t
  else scaled (nearestSqrt n (d * 4 ^ (-t).toNat)) t

/-- The function `Math.sqrt` on a number that is not negative (the program applies it
to a sum of squares). -/
def sqrt (q : ℚ) : ℚ := if q.num ≤ 0 then 0 else sqrtPos q.num.natAbs q.den

/-- The operators `+`, `*` and `/`. -/
def add (a b : ℚ) : ℚ := round (a + b)
def mul (a b : ℚ) : ℚ := round (a * b)
def div (a b : ℚ) : ℚ := round (a / b)

/-- The constant `Math.PI`, 3.141592653589793. -/
def PI : ℚ := 884279719003555 / 281474976710656

end Float64

/-- The arithmetic of JavaScript numbers, and the library constant
`THREE.MathUtils.DEG2RAD` that is computed with it. -/
structure Arith where
  add : ℚ → ℚ → ℚ
  mul : ℚ → ℚ → ℚ
  div : ℚ → ℚ → ℚ
  sqrt : ℚ → ℚ
  DEG2RAD : ℚ

/-- Exact arithmetic; `DEG2RAD`, pi / 180, is not rational and stays a parameter. The
rational square root is exact on the square of a rational, so on the squared length of
every vector along a coordinate axis. -/
def Arith.exact (DEG2RAD : ℚ) : Arith :=
  ⟨fun a b => a + b, fun a b => a * b, fun a b => a / b, Rat.sqrt, DEG2RAD⟩

/-- Binary64 arithmetic, with `DEG2RAD = Math.PI / 180` as the library computes it. -/
def Arith.float64 : Arith :=
  ⟨Float64.add, Float64.mul, Float64.div, Float64.sqrt, Float64.div Float64.PI 180⟩

/-- The vector type `THREE.Vector3`. -/
@[ext]
structure Vector3 where
  x : ℚ
  y : ℚ
  z : ℚ
  deriving DecidableEq, Repr

namespace Vector3

/-- The call `new THREE.Vector3()`. -/
def zero : Vector3 := ⟨0, 0, 0⟩

/-- The method `set(x, y, z)`. -/
def set (_v : Vector3) (x y z : ℚ) : Vector3 := ⟨x, y, z⟩

/-- The method `add(v)`. -/
def add (A : Arith) (u v : Vector3) : Vector3 := ⟨A.add u.x v.x, A.add u.y v.y, A.add u.z v.z⟩

/-- The method `addScaledVector(v, s)`. -/
def addScaledVector (A : Arith) (u v : Vector3) (s : ℚ) : Vector3 :=
  ⟨A.add u.x (A.mul v.x s), A.add u.y (A.mul v.y s), A.add u.z (A.mul v.z s)⟩

/-- The method `negate()`. -/
def negate (u : Vector3) : Vector3 := ⟨-u.x, -u.y, -u.z⟩

/-- The method `length()`: `Math.sqrt(x * x + y * y + z * z)`. -/
def length (A : Arith) (u : Vector3) : ℚ :=
  A.sqrt (A.add (A.add (A.mul u.x u.x) (A.mul u.y u.y)) (A.mul u.z u.z))

end Vector3

/-- The function `THREE.MathUtils.degToRad`: `degrees * DEG2RAD`. -/
def degToRad (A : Arith) (degrees : ℚ) : ℚ := A.mul degrees A.DEG2RAD

/-- The pose of a `THREE.Object3D`: its position, and the angles of the `rotateY`
calls it has received, oldest first. The library keeps the orientation as the product
of these rotations about the object's own Y axis. -/
structure Object3D where
  position : Vector3
  turnsY : List ℚ
  deriving DecidableEq, Repr

namespace Object3D

/-- A freshly constructed object: at the origin, not rotated. -/
def new : Object3D := ⟨Vector3.zero, []⟩

/-- The method `rotateY(angle)`. -/
def rotateY (o : Object3D) (angle : ℚ) : Object3D :=
  { o with turnsY := o.turnsY ++ [angle] }

end Object3D

/-- The pose of a `THREE.PerspectiveCamera`: `lookAt` turns the camera so that,
seen from the position it has at the time of the call (`lookFrom`), it faces
`lookTarget`. -/
structure Camera where
  fov : ℚ
  aspect : Option ℚ
  near : ℚ
  far : ℚ
  position : Vector3
  lookFrom : Vector3
  lookTarget : Vector3
  deriving DecidableEq, Repr

namespace Camera

/-- The constructor `new THREE.PerspectiveCamera(fov, aspect, near, far)`: at the
origin, facing down the negative Z axis. -/
def new (fov aspect near far : ℚ) : Camera :=
  ⟨fov, some aspect, near, far, Vector3.zero, Vector3.zero, ⟨0, 0, -1⟩⟩

/-- The statement `camera.position.set(x, y, z)`. -/
def setPosition (c : Camera) (x y z : ℚ) : Camera :=
  { c with position := c.position.set x y z }

/-- The method `lookAt(x, y, z)`. -/
def lookAt (c : Camera) (x y z : ℚ) : Camera :=
  { c with lookFrom := c.position, lookTarget := ⟨x, y, z⟩ }

/-- The method `updateProjectionMatrix()`: recomputes the projection matrix, which
is a function of `fov`, `aspect`, `near` and `far`, and changes none of them. -/
def updateProjectionMatrix (c : Camera) : Camera := c

end Camera

/-- An animation clip: the library gives each clip a unique id, and the model
file gives it a name. -/
structure AnimationClip where
  uuid : Nat
  name : String
  deriving DecidableEq, Repr

/-- The function `THREE.AnimationClip.findByName`: the first clip of the array
with the given name, or `null`. -/
def AnimationClip.findByName (clips : List AnimationClip) (name : String) :
    Option AnimationClip :=
  clips.find? (fun c => c.name == name)

/-- A `THREE.AnimationMixer`: its clock and the clips whose action is active.
`clipAction(clip)` returns the one action the mixer keeps for the clip. -/
structure AnimationMixer where
  time : ℚ
  active : List Nat
  deriving DecidableEq, Repr

namespace AnimationMixer

/-- The constructor `new THREE.AnimationMixer(root)`. -/
def new : AnimationMixer := ⟨0, []⟩

/-- The call `clipAction(clip).stop()`. -/
def stop (m : AnimationMixer) (clip : AnimationClip) : AnimationMixer :=
  { m with active := m.active.filter (fun u => u != clip.uuid) }

/-- The call `clipAction(clip).play()`. -/
def play (m : AnimationMixer) (clip : AnimationClip) : AnimationMixer :=
  { m with active := if clip.uuid ∈ m.active then m.active else m.active ++ [clip.uuid] }

/-- The method `update(deltaTime)`, with the time scale 1 of a new mixer. -/
def update (A : Arith) (m : AnimationMixer) (deltaTime : ℚ) : AnimationMixer :=
  { m with time := A.add m.time deltaTime }

/-- Whether the action of the clip is playing. -/
def isPlaying (m : AnimationMixer) (clip : AnimationClip) : Bool :=
  decide (clip.uuid ∈ m.active)

end AnimationMixer

/-- What the loader hands to the `onLoad` callback. -/
structure GLTF where
  scene : Object3D
  animations : List AnimationClip
  deriving DecidableEq, Repr

/-- The method `Map.prototype.set` on a map kept in insertion order. -/
def mapSet (m : List (String × Object3D)) (name : String) (o : Object3D) :
    List (String × Object3D) :=
  match m with
  | [] => [(name, o)]
  | (k, v) :: rest => if k = name then (k, o) :: rest else (k, v) :: mapSet rest name o

/-! ## `World` -/

/-- The fields of `World` that `update`, `#keyDown` and the loader callback use. -/
structure World where
  camera : Camera
  objectMap : List (String × Object3D)
  moveDirection : Vector3
  distanceMoved : ℚ
  soldier : Option Object3D
  mixer : Option AnimationMixer
  animations : Option (List AnimationClip)
  deriving DecidableEq, Repr

namespace World

/-- Sequencing of two statements: an exception leaves the method at once. -/
def andThen (r : Except JSError Unit × World) (f : World → Except JSError Unit × World) :
    Except JSError Unit × World :=
  match r with
  | (.ok _, w) => f w
  | (.error e, w) => (.error e, w)

/-- The field initialisers `#fov`, `#aspect`, `#zNear`, `#zFar`; `#zNear` is the decimal
0.1 of the source, which no method of the embedding reads. -/
def fov : ℚ := 75
def aspect : ℚ := 2
def zFar : ℚ := 1000
def zNear : ℚ := 1 / 10

/-- The method `#createPerspectiveCamera`. -/
def createPerspectiveCamera : Camera :=
  (((Camera.new fov aspect zNear zFar).lookAt 0 0 0).setPosition 0 1 5).updateProjectionMatrix

/-- The method `#addBox`, as far as the object map sees it. -/
def addBox (m : List (String × Object3D)) (name : String) (x y z : ℚ) :
    List (String × Object3D) :=
  mapSet m name { Object3D.new with position := Object3D.new.position.set x y z }

/-- The method `#addSphere`, as far as the object map sees it. -/
def addSphere (m : List (String × Object3D)) (name : String) (x y z : ℚ) :
    List (String × Object3D) :=
  mapSet m name { Object3D.new with position := Object3D.new.position.set x y z }

/-- The state at the end of `initialize`: the field initialisers, then
`#createPerspectiveCamera`, then `#setUpScene`. The model file has not been
loaded yet, so `#soldier` is `null` and `#mixer`, `#animations` are unset. -/
def initialized : World :=
  { camera := ((createPerspectiveCamera.setPosition 2 2 5).lookAt 0 0 0).updateProjectionMatrix
    objectMap := addSphere (addBox [] "Box1" 0 (1 / 2) 0) "Sphere1" (-1) (1 / 2) 0
    moveDirection := ⟨0, 0, 1⟩
    distanceMoved := 0
    soldier := none
    mixer := none
    animations := none }

/-- The method `#rotateObjectAroundY`. -/
def rotateObjectAroundY (A : Arith) (w : World) (name : String) (speed elapsedSeconds : ℚ) :
    Except JSError Unit × World :=
  match w.objectMap.lookup name with
  | none => (.error .typeError, w)
  | some object =>
    let deltaRadians := degToRad A (A.mul speed elapsedSeconds)
    (.ok (), { w with objectMap := mapSet w.objectMap name (object.rotateY deltaRadians) })

/-- The method `#moveObjectBackAndForth` (the default value 2 of `distanceToMove`
is never used: the one caller passes 3). -/
def moveObjectBackAndForth (A : Arith) (w : World) (name : String)
    (elapsedSeconds distanceToMove : ℚ) : Except JSError Unit × World :=
  let object := w.objectMap.lookup name
  let deltaMove := Vector3.zero.addScaledVector A w.moveDirection elapsedSeconds
  let w1 := { w with distanceMoved := A.add w.distanceMoved (deltaMove.length A) }
  let w2 := if w1.distanceMoved ≥ distanceToMove then
      { w1 with moveDirection := w1.moveDirection.negate, distanceMoved := 0 }
    else w1
  match object with
  | none => (.error .typeError, w2)
  | some o =>
    (.ok (), { w2 with
      objectMap := mapSet w2.objectMap name { o with position := o.position.add A deltaMove } })

/-- The method `update`. -/
def update (A : Arith) (w : World) (elapsedMS : ℚ) : Except JSError Unit × World :=
  let elapsedSeconds := A.div elapsedMS 1000
  andThen (rotateObjectAroundY A w "Box1" 180 elapsedSeconds) fun w =>
  andThen (moveObjectBackAndForth A w "Sphere1" elapsedSeconds 3) fun w =>
  match w.mixer with
  | some m => (.ok (), { w with mixer := some (m.update A elapsedSeconds) })
  | none => (.ok (), w)

/-- The loop of `#activateActionByName`: `this.#mixer.clipAction(clip).stop()` for
each clip of the array in turn. -/
def stopAll (w : World) : List AnimationClip → Except JSError Unit × World
  | [] => (.ok (), w)
  | clip :: rest =>
    match w.mixer with
    | none => (.error .typeError, w)
    | some m => stopAll { w with mixer := some (m.stop clip) } rest

/-- The method `#activateActionByName`. Reading `length` of an unset
`#animations` throws; `clipAction(null)` returns `null`, so `play` on the action
of a name that no clip has throws. -/
def activateActionByName (w : World) (name : String) : Except JSError Unit × World :=
  match w.animations with
  | none => (.error .typeError, w)
  | some animations =>
    andThen (stopAll w animations) fun w =>
    let clip := AnimationClip.findByName animations name
    match w.mixer with
    | none => (.error .typeError, w)
    | some m =>
      match clip with
      | none => (.error .typeError, w)
      | some c => (.ok (), { w with mixer := some (m.play c) })

/-- The camera statements shared by the cases "1" to "5" of `#keyDown`. -/
def cameraPreset (w : World) (x y z : ℚ) : Except JSError Unit × World :=
  (.ok (), { w with camera := ((w.camera.setPosition x y z).lookAt 0 0 0).updateProjectionMatrix })

/-- The method `#keyDown`, applied to `event.key`. -/
def keyDown (w : World) (keyName : String) : Except JSError Unit × World :=
  match keyName with
  | "i" => activateActionByName w "Idle"
  | "I" => activateActionByName w "Idle"
  | "r" => activateActionByName w "Run"
  | "R" => activateActionByName w "Run"
  | "t" => activateActionByName w "TPose"
  | "T" => activateActionByName w "TPose"
  | "w" => activateActionByName w "Walk"
  | "W" => activateActionByName w "Walk"
  | "1" => cameraPreset w 0 2 5
  | "2" => cameraPreset w 5 2 0
  | "3" => cameraPreset w 0 2 (-5)
  | "4" => cameraPreset w (-5) 2 0
  | "5" => cameraPreset w 2 2 5
  | _ => (.ok (), w)

/-- The callback that `#loadSoldier` hands to the loader, run when the model file
has arrived. -/
def soldierLoaded (A : Arith) (w : World) (gltf : GLTF) : Except JSError Unit × World :=
  let soldier := gltf.scene
  let soldier := { soldier with position := soldier.position.set 2 0 0 }
  let soldier := soldier.rotateY (degToRad A 180)
  let w := { w with soldier := some soldier }
  let w := { w with mixer := some AnimationMixer.new }
  let w := { w with animations := some gltf.animations }
  activateActionByName w "Idle"

/-- The states a world can be in after `initialize`: frames, key presses and the
arrival of the model file (once) in any order. -/
inductive Reachable (A : Arith) : World → Prop where
  | init : Reachable A initialized
  | update {w : World} (elapsedMS : ℚ) : Reachable A w → Reachable A (update A w elapsedMS).2
  | keyDown {w : World} (keyName : String) : Reachable A w → Reachable A (keyDown w keyName).2
  | loaded {w : World} (gltf : GLTF) :
      Reachable A w → w.soldier = none → Reachable A (soldierLoaded A w gltf).2

/-- The state after a run of frames with the given frame times, oldest first. -/
def updates (A : Arith) (w : World) : List ℚ → World
  | [] => w
  | elapsedMS :: rest => updates A (update A w elapsedMS).2 rest

/-- The state after `n` frames that all take `elapsedMS`. -/
def frames (A : Arith) (w : World) (elapsedMS : ℚ) : Nat → World
  | 0 => w
  | n + 1 => frames A (update A w elapsedMS).2 elapsedMS n

/-- The object the object map holds under a name. -/
def object (w : World) (name : String) : Option Object3D := w.objectMap.lookup name

end World

/-- The fields that the animation methods never write. -/
def World.sameButMixer (w w' : World) : Prop :=
  w'.camera = w.camera ∧ w'.objectMap = w.objectMap ∧ w'.moveDirection = w.moveDirection ∧
    w'.distanceMoved = w.distanceMoved ∧ w'.soldier = w.soldier ∧ w'.animations = w.animations

/-- The map holds exactly the two objects that `#setUpScene` registers. -/
def World.HasObjects (w : World) (box sphere : Object3D) : Prop :=
  w.objectMap = [("Box1", box), ("Sphere1", sphere)]

/-- The direction of motion is along the Z axis, one way or the other. -/
def World.AlongZ (d : Vector3) : Prop := d = ⟨0, 0, 1⟩ ∨ d = ⟨0, 0, -1⟩

/-- What every frame, key press and model arrival keeps true of a world. -/
def World.Inv (w : World) : Prop :=
  ∃ box sphere, w.HasObjects box sphere ∧ box.position = ⟨0, 1 / 2, 0⟩ ∧
    sphere.position.x = -1 ∧ sphere.position.y = 1 / 2 ∧
    AlongZ w.moveDirection ∧ 0 ≤ w.distanceMoved ∧ w.distanceMoved < 3 ∧
    (w.soldier = none → w.mixer = none ∧ w.animations = none)

/-- A model file with the four clips of the soldier model. -/
def soldierFile : GLTF :=
  ⟨Object3D.new, [⟨0, "Idle"⟩, ⟨1, "Run"⟩, ⟨2, "TPose"⟩, ⟨3, "Walk"⟩]⟩

/-! ## `ThreeJSEngine` -/

/-- The canvas element: the size of its drawing buffer (`width`, `height`) and the
size at which the page displays it (`clientWidth`, `clientHeight`), in pixels. -/
structure Canvas where
  width : Nat
  height : Nat
  clientWidth : Nat
  clientHeight : Nat
  deriving DecidableEq, Repr

/-- The quotient of two JavaScript numbers, `none` when it is not a finite number. -/
def jsDiv (a b : ℚ) : Option ℚ := if b = 0 then none else some (a / b)

/-- A call the renderer has received; the scene type `σ` is left open. -/
inductive RendererCall (σ : Type) where
  | setSize (width height : Nat) (updateStyle : Bool)
  | render (scene : σ) (camera : Camera)

/-- A `THREE.WebGLRenderer` with the pixel ratio 1 it is constructed with: its
canvas, its size, the two settings `initialize` makes, and the calls received. -/
structure WebGLRenderer (σ : Type) where
  domElement : Canvas
  width : Nat
  height : Nat
  shadowMapEnabled : Bool
  clearColor : Nat
  calls : List (RendererCall σ)

namespace WebGLRenderer

/-- The constructor `new THREE.WebGLRenderer` on a given canvas. -/
def new {σ : Type} (canvas : Canvas) : WebGLRenderer σ :=
  ⟨canvas, canvas.width, canvas.height, false, 0, []⟩

/-- The method `setSize(width, height, updateStyle)`: sets the size of the renderer
and of the drawing buffer; with `updateStyle` false the style of the canvas, and
so its display size, stays as it is. -/
def setSize {σ : Type} (r : WebGLRenderer σ) (width height : Nat) (updateStyle : Bool) :
    WebGLRenderer σ :=
  { r with
    width := width
    height := height
    domElement := { r.domElement with width := width, height := height }
    calls := r.calls ++ [.setSize width height updateStyle] }

/-- The method `render(scene, camera)`. -/
def render {σ : Type} (r : WebGLRenderer σ) (scene : σ) (camera : Camera) : WebGLRenderer σ :=
  { r with calls := r.calls ++ [.render scene camera] }

end WebGLRenderer

/-- The state of a `ThreeJSEngine` from the end of `initialize` on; `#canvas` is
the `domElement` of the renderer. -/
structure ThreeJSEngine (σ : Type) where
  renderer : WebGLRenderer σ
  clearColor : Nat
  cameraAspect : Option ℚ

namespace ThreeJSEngine

/-- The state at the end of `initialize`, for an engine constructed on `canvas`. -/
def initialized {σ : Type} (canvas : Canvas) : ThreeJSEngine σ :=
  let clearColor := 0
  { renderer := { (WebGLRenderer.new canvas : WebGLRenderer σ) with
      shadowMapEnabled := true, clearColor := clearColor }
    clearColor := clearColor
    cameraAspect := some 2 }

/-- The method `update`, whose body is empty. -/
def update {σ : Type} (e : ThreeJSEngine σ) (_elapsedMS : ℚ) : ThreeJSEngine σ := e

/-- The method `#resizeRendererToDisplaySize`. -/
def resizeRendererToDisplaySize {σ : Type} (e : ThreeJSEngine σ) : Bool × ThreeJSEngine σ :=
  let canvas := e.renderer.domElement
  let width := canvas.clientWidth
  let height := canvas.clientHeight
  let needResize := canvas.width != width || canvas.height != height
  let e1 := if needResize then { e with renderer := e.renderer.setSize width height false } else e
  (needResize, { e1 with cameraAspect := jsDiv width height })

/-- The method `render`; the camera is returned since `aspect` may be assigned. -/
def render {σ : Type} (e : ThreeJSEngine σ) (scene : σ) (camera : Camera) :
    ThreeJSEngine σ × Camera :=
  let (needResize, e1) := e.resizeRendererToDisplaySize
  let camera1 :=
    if needResize then
      let canvas := e1.renderer.domElement
      ({ camera with aspect := jsDiv canvas.clientWidth canvas.clientHeight }).updateProjectionMatrix
    else camera
  ({ e1 with renderer := e1.renderer.render scene camera1 }, camera1)

end ThreeJSEngine


/-! ## Frame lemmas for the key handler -/

namespace World

theorem sameButMixer_refl (w : World) : sameButMixer w w := by
  simp [sameButMixer]

theorem sameButMixer_trans {a b c : World} (h₁ : sameButMixer a b) (h₂ : sameButMixer b c) :
    sameButMixer a c := by
  obtain ⟨h1, h2, h3, h4, h5, h6⟩ := h₁
  obtain ⟨g1, g2, g3, g4, g5, g6⟩ := h₂
  exact ⟨g1.trans h1, g2.trans h2, g3.trans h3, g4.trans h4, g5.trans h5, g6.trans h6⟩

theorem stopAll_frame (clips : List AnimationClip) (w : World) :
    sameButMixer w (stopAll w clips).2 := by
  induction clips generalizing w with
  | nil => simp [stopAll, sameButMixer]
  | cons c cs ih =>
    cases hm : w.mixer with
    | none => simp [stopAll, hm, sameButMixer]
    | some m =>
      simp only [stopAll, hm]
      exact sameButMixer_trans (by simp [sameButMixer]) (ih _)

theorem activateActionByName_frame (w : World) (name : String) :
    sameButMixer w (activateActionByName w name).2 := by
  unfold activateActionByName
  cases ha : w.animations with
  | none => simp [sameButMixer]
  | some anims =>
    have h := stopAll_frame anims w
    simp only
    rcases hs : stopAll w anims with ⟨r, w1⟩
    rw [hs] at h
    cases r with
    | error e => simpa [andThen] using h
    | ok u =>
      simp only [andThen]
      cases hm : w1.mixer with
      | none => simpa using h
      | some m =>
        cases hc : AnimationClip.findByName anims name with
        | none => simpa using h
        | some c => exact sameButMixer_trans h (by simp [sameButMixer])

theorem keyDown_other (w : World) (k : String)
    (hk : k ∉ ["i", "I", "r", "R", "t", "T", "w", "W", "1", "2", "3", "4", "5"]) :
    keyDown w k = (.ok (), w) := by
  simp only [List.mem_cons, List.mem_singleton, not_or, List.mem_nil_iff, not_false_eq_true,
    and_true] at hk
  unfold keyDown
  split <;> simp_all

end World

/-! ## One frame -/

namespace Vector3

theorem length_scaled_up (c s : ℚ) : (zero.addScaledVector (Arith.exact c) ⟨0, 0, 1⟩ s).length (Arith.exact c) = |s| := by
  simp [length, addScaledVector, zero, Arith.exact, Rat.sqrt_eq]

theorem length_scaled_down (c s : ℚ) : (zero.addScaledVector (Arith.exact c) ⟨0, 0, -1⟩ s).length (Arith.exact c) = |s| := by
  simp [length, addScaledVector, zero, Arith.exact, Rat.sqrt_eq]

end Vector3

namespace World

theorem update_of_objects (A : Arith) (w : World) (b s : Object3D)
    (h : w.objectMap = [("Box1", b), ("Sphere1", s)]) (e : ℚ) :
    update A w e = (.ok (),
      { camera := w.camera
        objectMap := [("Box1", b.rotateY (degToRad A (A.mul 180 (A.div e 1000)))),
          ("Sphere1",
            { s with
              position := s.position.add A
                (Vector3.zero.addScaledVector A w.moveDirection (A.div e 1000)) })]
        moveDirection :=
          if 3 ≤ A.add w.distanceMoved
            ((Vector3.zero.addScaledVector A w.moveDirection (A.div e 1000)).length A)
          then w.moveDirection.negate else w.moveDirection
        distanceMoved :=
          if 3 ≤ A.add w.distanceMoved
            ((Vector3.zero.addScaledVector A w.moveDirection (A.div e 1000)).length A)
          then 0
          else A.add w.distanceMoved
            ((Vector3.zero.addScaledVector A w.moveDirection (A.div e 1000)).length A)
        soldier := w.soldier
        mixer := w.mixer.map (fun m => m.update A (A.div e 1000))
        animations := w.animations }) := by
  unfold update rotateObjectAroundY moveObjectBackAndForth
  simp only [h, List.lookup, andThen, mapSet]
  simp
  have hne : ("Sphere1" == "Box1") = false := by decide
  split_ifs <;> cases hm : w.mixer <;> simp [hm, mapSet, List.lookup, hne]

theorem update_of_shape (c : ℚ) (w : World) (b s : Object3D)
    (h : w.objectMap = [("Box1", b), ("Sphere1", s)]) (e : ℚ) :
    update (Arith.exact c) w e = (.ok (),
      { camera := w.camera
        objectMap := [("Box1", b.rotateY (degToRad (Arith.exact c) (180 * (e / 1000)))),
          ("Sphere1",
            { s with
              position := s.position.add (Arith.exact c)
                (Vector3.zero.addScaledVector (Arith.exact c) w.moveDirection (e / 1000)) })]
        moveDirection :=
          if 3 ≤ w.distanceMoved +
            (Vector3.zero.addScaledVector (Arith.exact c) w.moveDirection (e / 1000)).length
              (Arith.exact c)
          then w.moveDirection.negate else w.moveDirection
        distanceMoved :=
          if 3 ≤ w.distanceMoved +
            (Vector3.zero.addScaledVector (Arith.exact c) w.moveDirection (e / 1000)).length
              (Arith.exact c)
          then 0
          else w.distanceMoved +
            (Vector3.zero.addScaledVector (Arith.exact c) w.moveDirection (e / 1000)).length
              (Arith.exact c)
        soldier := w.soldier
        mixer := w.mixer.map (fun m => m.update (Arith.exact c) (e / 1000))
        animations := w.animations }) :=
  update_of_objects (Arith.exact c) w b s h e

end World

/-! ## Reachable states -/

namespace World

theorem object_box {w : World} {b s : Object3D} (h : w.HasObjects b s) :
    w.object "Box1" = some b := by
  simp [object, HasObjects.eq_1 w b s ▸ h, List.lookup]

theorem object_sphere {w : World} {b s : Object3D} (h : w.HasObjects b s) :
    w.object "Sphere1" = some s := by
  have hne : ("Sphere1" == "Box1") = false := by decide
  simp [object, HasObjects.eq_1 w b s ▸ h, List.lookup, hne]

theorem initialized_hasObjects :
    initialized.HasObjects ⟨⟨0, 1 / 2, 0⟩, []⟩ ⟨⟨-1, 1 / 2, 0⟩, []⟩ := by
  simp [HasObjects, initialized, addSphere, addBox, mapSet, Object3D.new, Vector3.set,
    Vector3.zero]

theorem keyDown_frame (w : World) (k : String) :
    (keyDown w k).2.objectMap = w.objectMap ∧ (keyDown w k).2.moveDirection = w.moveDirection ∧
    (keyDown w k).2.distanceMoved = w.distanceMoved ∧ (keyDown w k).2.soldier = w.soldier ∧
    (keyDown w k).2.animations = w.animations := by
  unfold keyDown
  split
  all_goals first
    | exact (activateActionByName_frame w _).2
    | simp [cameraPreset]

theorem keyDown_camera_frame (w : World) (k : String)
    (hk : k ∉ ["1", "2", "3", "4", "5"]) : (keyDown w k).2.camera = w.camera := by
  simp only [List.mem_cons, List.mem_singleton, not_or, List.mem_nil_iff, not_false_eq_true,
    and_true] at hk
  unfold keyDown
  split
  all_goals first
    | exact (activateActionByName_frame w _).1
    | rfl
    | simp_all

theorem soldierLoaded_frame (A : Arith) (w : World) (gltf : GLTF) :
    (soldierLoaded A w gltf).2.camera = w.camera ∧
    (soldierLoaded A w gltf).2.objectMap = w.objectMap ∧
    (soldierLoaded A w gltf).2.moveDirection = w.moveDirection ∧
    (soldierLoaded A w gltf).2.distanceMoved = w.distanceMoved ∧
    (soldierLoaded A w gltf).2.soldier ≠ none := by
  unfold soldierLoaded
  obtain ⟨h1, h2, h3, h4, h5, -⟩ := activateActionByName_frame
    { w with
      soldier := some (({ gltf.scene with position := gltf.scene.position.set 2 0 0 } :
        Object3D).rotateY (degToRad A 180))
      mixer := some AnimationMixer.new
      animations := some gltf.animations } "Idle"
  simp only at h1 h2 h3 h4 h5 ⊢
  refine ⟨h1, h2, h3, h4, ?_⟩
  rw [h5]
  simp

theorem inv_initialized : Inv initialized := by
  refine ⟨_, _, initialized_hasObjects, rfl, rfl, rfl, Or.inl rfl, ?_, ?_, ?_⟩
  · simp [initialized]
  · simp [initialized]
  · intro _
    exact ⟨rfl, rfl⟩

theorem inv_update (c : ℚ) {w : World} (h : Inv w) (e : ℚ) :
    (update (Arith.exact c) w e).1 = .ok () ∧ Inv (update (Arith.exact c) w e).2 := by
  obtain ⟨b, s, hobj, hb, hx, hy, hd, h0, h3, hs⟩ := h
  rw [update_of_shape c w b s hobj e]
  refine ⟨rfl, _, _, rfl, ?_, ?_, ?_, ?_, ?_, ?_, ?_⟩
  · simpa [Object3D.rotateY] using hb
  · rcases hd with hd | hd <;> simp [hd, Vector3.add, Vector3.addScaledVector, Vector3.zero, Arith.exact, hx]
  · rcases hd with hd | hd <;> simp [hd, Vector3.add, Vector3.addScaledVector, Vector3.zero, Arith.exact, hy]
  · simp only
    split_ifs
    · rcases hd with hd | hd <;> simp [hd, AlongZ, Vector3.negate]
    · exact hd
  · simp only
    split_ifs
    · exact le_refl 0
    · exact add_nonneg h0 (by
        rcases hd with hd | hd
        · rw [hd, Vector3.length_scaled_up]; exact abs_nonneg _
        · rw [hd, Vector3.length_scaled_down]; exact abs_nonneg _)
  · simp only
    split_ifs with hge
    · norm_num
    · exact not_le.mp hge
  · intro hsol
    obtain ⟨hm, ha⟩ := hs hsol
    simp [hm, ha]

theorem inv_of_frame {w w' : World} (h : Inv w) (hobj : w'.objectMap = w.objectMap)
    (hd : w'.moveDirection = w.moveDirection) (hdist : w'.distanceMoved = w.distanceMoved)
    (hs : w'.soldier = none → w'.mixer = none ∧ w'.animations = none) : Inv w' := by
  obtain ⟨b, s, ho, hb, hx, hy, hdir, h0, h3, -⟩ := h
  refine ⟨b, s, ?_, hb, hx, hy, ?_, ?_, ?_, hs⟩
  · simpa [HasObjects, hobj] using ho
  · rw [hd]; exact hdir
  · rw [hdist]; exact h0
  · rw [hdist]; exact h3

theorem keyDown_unloaded (w : World) (k : String) (ha : w.animations = none) :
    (keyDown w k).2.mixer = w.mixer := by
  unfold keyDown
  split
  all_goals first
    | simp [activateActionByName, ha]
    | rfl

theorem inv_keyDown {w : World} (h : Inv w) (k : String) : Inv (keyDown w k).2 := by
  obtain ⟨h2, h3, h4, h5, h6⟩ := keyDown_frame w k
  refine inv_of_frame h h2 h3 h4 ?_
  intro hsol
  obtain ⟨b, s, -, -, -, -, -, -, -, hs⟩ := h
  obtain ⟨hm, ha⟩ := hs (h5 ▸ hsol)
  exact ⟨(keyDown_unloaded w k ha).trans hm, h6.trans ha⟩

theorem inv_soldierLoaded (c : ℚ) {w : World} (h : Inv w) (gltf : GLTF) :
    Inv (soldierLoaded (Arith.exact c) w gltf).2 := by
  obtain ⟨-, h2, h3, h4, h5⟩ := soldierLoaded_frame (Arith.exact c) w gltf
  exact inv_of_frame h h2 h3 h4 (fun hsol => absurd hsol h5)

theorem inv_of_reachable {c : ℚ} {w : World} (h : Reachable (Arith.exact c) w) : Inv w := by
  induction h with
  | init => exact inv_initialized
  | update e _ ih => exact (inv_update c ih e).2
  | keyDown k _ ih => exact inv_keyDown ih k
  | loaded gltf _ _ ih => exact inv_soldierLoaded c ih gltf

end World

/-! ## The key handler -/

namespace World

theorem keyDown_mixer_frame (w : World) (k : String) (hk : k ∈ ["1", "2", "3", "4", "5"]) :
    (keyDown w k).1 = .ok () ∧ (keyDown w k).2.mixer = w.mixer := by
  simp only [List.mem_cons, List.mem_singleton, List.mem_nil_iff, or_false] at hk
  rcases hk with rfl | rfl | rfl | rfl | rfl <;> exact ⟨rfl, rfl⟩

theorem update_frame (A : Arith) (w : World) (e : ℚ) :
    (update A w e).2.soldier = w.soldier ∧ (update A w e).2.animations = w.animations ∧
    (w.mixer = none → (update A w e).2.mixer = none) := by
  unfold update rotateObjectAroundY moveObjectBackAndForth
  cases h1 : List.lookup "Box1" w.objectMap with
  | none => simp [andThen]
  | some b =>
    simp only [andThen]
    split
    · rename_i u w' heq
      split at heq
      · simp at heq
      · simp only [Prod.mk.injEq] at heq
        obtain ⟨-, rfl⟩ := heq
        cases hm : w.mixer <;> split_ifs <;> simp [hm]
    · rename_i e' w' heq
      split at heq
      · simp only [Prod.mk.injEq] at heq
        obtain ⟨-, rfl⟩ := heq
        split_ifs <;> simp
      · simp at heq

theorem unloaded_of_reachable {A : Arith} {w : World} (h : Reachable A w)
    (hs : w.soldier = none) : w.mixer = none ∧ w.animations = none := by
  induction h with
  | init => exact ⟨rfl, rfl⟩
  | update e _ ih =>
    obtain ⟨h1, h2, h3⟩ := update_frame A _ e
    obtain ⟨hm, ha⟩ := ih (h1 ▸ hs)
    exact ⟨h3 hm, h2.trans ha⟩
  | keyDown k _ ih =>
    obtain ⟨-, -, -, h4, h5⟩ := keyDown_frame _ k
    obtain ⟨hm, ha⟩ := ih (h4 ▸ hs)
    exact ⟨(keyDown_unloaded _ k ha).trans hm, h5.trans ha⟩
  | loaded gltf _ _ _ => exact absurd hs (soldierLoaded_frame A _ gltf).2.2.2.2

/-- C1: on the keys "1" to "5" the key handler completes normally and puts the camera
at the preset of the key, (0,2,5), (5,2,0), (0,2,-5), (-5,2,0) or (2,2,5), whatever its
position was, and turns it to face the origin from there; nothing else changes. -/
theorem keyDown_camera_preset (w : World) :
    keyDown w "1" = (.ok (), { w with camera := { w.camera with
      position := ⟨0, 2, 5⟩, lookFrom := ⟨0, 2, 5⟩, lookTarget := ⟨0, 0, 0⟩ } }) ∧
    keyDown w "2" = (.ok (), { w with camera := { w.camera with
      position := ⟨5, 2, 0⟩, lookFrom := ⟨5, 2, 0⟩, lookTarget := ⟨0, 0, 0⟩ } }) ∧
    keyDown w "3" = (.ok (), { w with camera := { w.camera with
      position := ⟨0, 2, -5⟩, lookFrom := ⟨0, 2, -5⟩, lookTarget := ⟨0, 0, 0⟩ } }) ∧
    keyDown w "4" = (.ok (), { w with camera := { w.camera with
      position := ⟨-5, 2, 0⟩, lookFrom := ⟨-5, 2, 0⟩, lookTarget := ⟨0, 0, 0⟩ } }) ∧
    keyDown w "5" = (.ok (), { w with camera := { w.camera with
      position := ⟨2, 2, 5⟩, lookFrom := ⟨2, 2, 5⟩, lookTarget := ⟨0, 0, 0⟩ } }) := by
  refine ⟨?_, ?_, ?_, ?_, ?_⟩ <;> rfl

/-- C9: a key that the handler does not name leaves the world as it is; a camera key
leaves the mixer (the playing animations) and the clip list as they are; any key but a
camera key leaves the camera as it is; and no key changes the object map (so the
positions of Box1 and Sphere1), the move direction or the distance moved. -/
theorem keyDown_touches_only_its_target (w : World) (k : String) :
    (k ∉ ["i", "I", "r", "R", "t", "T", "w", "W", "1", "2", "3", "4", "5"] →
      keyDown w k = (.ok (), w)) ∧
    (k ∈ ["1", "2", "3", "4", "5"] →
      (keyDown w k).2.mixer = w.mixer ∧ (keyDown w k).2.animations = w.animations) ∧
    (k ∈ ["i", "I", "r", "R", "t", "T", "w", "W"] → (keyDown w k).2.camera = w.camera) ∧
    (keyDown w k).2.objectMap = w.objectMap ∧
    (keyDown w k).2.object "Box1" = w.object "Box1" ∧
    (keyDown w k).2.object "Sphere1" = w.object "Sphere1" ∧
    (keyDown w k).2.moveDirection = w.moveDirection ∧
    (keyDown w k).2.distanceMoved = w.distanceMoved := by
  obtain ⟨h1, h2, h3, -, h5⟩ := keyDown_frame w k
  refine ⟨keyDown_other w k, fun hk => ⟨(keyDown_mixer_frame w k hk).2, h5⟩, fun hk => ?_,
    h1, ?_, ?_, h2, h3⟩
  · apply keyDown_camera_frame
    simp only [List.mem_cons, List.mem_singleton, List.mem_nil_iff, or_false] at hk
    rcases hk with rfl | rfl | rfl | rfl | rfl | rfl | rfl | rfl <;> decide
  · simp [object, h1]
  · simp [object, h1]

/-- C10, as the code behaves: in every reachable state in which the model file has not
arrived yet, each of the eight animation keys makes the key handler throw, in either
arithmetic. -/
theorem keyDown_throws_before_load (A : Arith) (w : World) (h : Reachable A w)
    (hs : w.soldier = none) (k : String) (hk : k ∈ ["i", "I", "r", "R", "t", "T", "w", "W"]) :
    (keyDown w k).1 = .error .typeError := by
  obtain ⟨-, ha⟩ := unloaded_of_reachable h hs
  simp only [List.mem_cons, List.mem_singleton, List.mem_nil_iff, or_false] at hk
  rcases hk with rfl | rfl | rfl | rfl | rfl | rfl | rfl | rfl <;>
    simp [keyDown, activateActionByName, ha]

theorem keyDown_throws_before_load_witness :
    (keyDown initialized "i").1 = .error .typeError :=
  keyDown_throws_before_load Arith.float64 initialized Reachable.init rfl "i" (by decide)

/-! ## Animations -/

theorem stopAll_some (clips : List AnimationClip) (w : World) (m : AnimationMixer)
    (hm : w.mixer = some m) :
    stopAll w clips = (.ok (), { w with mixer := some (clips.foldl AnimationMixer.stop m) }) := by
  induction clips generalizing w m with
  | nil => cases w; simp_all [stopAll]
  | cons c cs ih =>
    simp only [stopAll, hm, List.foldl_cons]
    rw [ih _ (m.stop c) rfl]

theorem mem_active_foldl_stop (clips : List AnimationClip) (m : AnimationMixer) (u : Nat) :
    u ∈ (clips.foldl AnimationMixer.stop m).active ↔ u ∈ m.active ∧ ∀ c ∈ clips, u ≠ c.uuid := by
  induction clips generalizing m with
  | nil => simp
  | cons c cs ih =>
    simp only [List.foldl_cons, ih, AnimationMixer.stop, List.mem_filter, bne_iff_ne, ne_eq,
      List.mem_cons, forall_eq_or_imp]
    tauto

theorem isPlaying_after_activate (anims : List AnimationClip) (m : AnimationMixer)
    (c x : AnimationClip) (hx : x ∈ anims) :
    ((anims.foldl AnimationMixer.stop m).play c).isPlaying x = true ↔ x.uuid = c.uuid := by
  have hnot : x.uuid ∉ (anims.foldl AnimationMixer.stop m).active := by
    rw [mem_active_foldl_stop]
    rintro ⟨-, h⟩
    exact h x hx rfl
  simp only [AnimationMixer.isPlaying, AnimationMixer.play, decide_eq_true_eq]
  split_ifs with hc
  · constructor
    · intro h; exact absurd h hnot
    · intro h; exact absurd (h ▸ hc) hnot
  · simp [hnot]

theorem activateActionByName_found (w : World) (m : AnimationMixer) (anims : List AnimationClip)
    (name : String) (c : AnimationClip) (hm : w.mixer = some m) (ha : w.animations = some anims)
    (hc : AnimationClip.findByName anims name = some c) :
    activateActionByName w name =
      (.ok (), { w with mixer := some ((anims.foldl AnimationMixer.stop m).play c) }) := by
  simp [activateActionByName, ha, stopAll_some anims w m hm, andThen, hc]

theorem activateActionByName_named (w : World) (m : AnimationMixer)
    (anims : List AnimationClip) (name : String) (hm : w.mixer = some m)
    (ha : w.animations = some anims) (hnames : (anims.map (fun c => c.name)).Nodup)
    (huuid : (anims.map (fun c => c.uuid)).Nodup) (hmem : name ∈ anims.map (fun c => c.name)) :
    ∃ m', activateActionByName w name = (.ok (), { w with mixer := some m' }) ∧
      ∀ c ∈ anims, (m'.isPlaying c = true ↔ c.name = name) := by
  cases hfind : AnimationClip.findByName anims name with
  | none =>
    exfalso
    obtain ⟨x, hx, hxn⟩ := List.mem_map.mp hmem
    have hall := List.find?_eq_none.mp hfind x hx
    simp [hxn] at hall
  | some c =>
    have hcn : c.name = name := by
      have hp := List.find?_some hfind
      simpa using hp
    have hc : c ∈ anims := List.mem_of_find?_eq_some hfind
    refine ⟨_, activateActionByName_found w m anims name c hm ha hfind, fun x hx => ?_⟩
    rw [isPlaying_after_activate anims m c x hx]
    constructor
    · intro hu
      rw [List.inj_on_of_nodup_map huuid hx hc hu]
      exact hcn
    · intro hn
      rw [List.inj_on_of_nodup_map hnames hx hc (hn.trans hcn.symm)]

/-- C6: in a world whose model file has arrived with the clips Idle, Run, TPose and
Walk (in any order, each with an id of its own), the keys i, r, t, w in either case call
`activateActionByName` with "Idle", "Run", "TPose", "Walk", and that call completes
normally, changes the mixer only, and leaves the action of a clip playing exactly when
the clip bears the name, whatever was playing before. -/
theorem keyDown_selects_animation (w : World) (m : AnimationMixer)
    (anims : List AnimationClip) (hm : w.mixer = some m) (ha : w.animations = some anims)
    (hnames : (anims.map (fun c => c.name)).Perm ["Idle", "Run", "TPose", "Walk"])
    (huuid : (anims.map (fun c => c.uuid)).Nodup) :
    (∀ kn ∈ [("i", "Idle"), ("I", "Idle"), ("r", "Run"), ("R", "Run"), ("t", "TPose"),
        ("T", "TPose"), ("w", "Walk"), ("W", "Walk")],
      keyDown w kn.1 = activateActionByName w kn.2) ∧
    ∀ name ∈ ["Idle", "Run", "TPose", "Walk"], ∃ m',
      activateActionByName w name = (.ok (), { w with mixer := some m' }) ∧
      ∀ c ∈ anims, (m'.isPlaying c = true ↔ c.name = name) := by
  constructor
  · intro kn hkn
    simp only [List.mem_cons, List.mem_singleton, List.mem_nil_iff, or_false] at hkn
    rcases hkn with rfl | rfl | rfl | rfl | rfl | rfl | rfl | rfl <;> rfl
  · intro name hname
    exact activateActionByName_named w m anims name hm ha (hnames.nodup_iff.mpr (by decide)) huuid
      (hnames.mem_iff.mpr hname)

theorem keyDown_selects_animation_witness :
    ∃ m', activateActionByName (soldierLoaded (Arith.exact 0) initialized soldierFile).2 "Run" =
        (.ok (), { (soldierLoaded (Arith.exact 0) initialized soldierFile).2 with mixer := some m' }) ∧
      ∀ c ∈ soldierFile.animations, (m'.isPlaying c = true ↔ c.name = "Run") :=
  (keyDown_selects_animation (soldierLoaded (Arith.exact 0) initialized soldierFile).2 ⟨0, [0]⟩
    soldierFile.animations (by decide) (by decide) (List.Perm.refl _) (by decide)).2 "Run"
    (by decide)

/-! ## Runs of frames -/

theorem updates_append (c : ℚ) (w : World) (a b : List ℚ) :
    updates (Arith.exact c) w (a ++ b) = updates (Arith.exact c) (updates (Arith.exact c) w a) b := by
  induction a generalizing w with
  | nil => rfl
  | cons t ts ih =>
    rw [List.cons_append]
    simp only [updates]
    exact ih _

theorem reachable_updates {c : ℚ} {w : World} (h : Reachable (Arith.exact c) w) (es : List ℚ) :
    Reachable (Arith.exact c) (updates (Arith.exact c) w es) := by
  induction es generalizing w with
  | nil => exact h
  | cons t ts ih => exact ih (Reachable.update t h)

theorem frames_eq_updates (c : ℚ) (w : World) (e : ℚ) (n : Nat) :
    frames (Arith.exact c) w e n = updates (Arith.exact c) w (List.replicate n e) := by
  induction n generalizing w with
  | zero => rfl
  | succ k ih => simp only [frames, List.replicate_succ, updates, ih]

theorem frames_add (c : ℚ) (w : World) (e : ℚ) (a b : Nat) :
    frames (Arith.exact c) w e (a + b) = frames (Arith.exact c) (frames (Arith.exact c) w e a) e b := by
  simp only [frames_eq_updates, List.replicate_add, updates_append]

theorem frames_succ (c : ℚ) (w : World) (e : ℚ) (k : Nat) :
    frames (Arith.exact c) w e (k + 1) = (update (Arith.exact c) (frames (Arith.exact c) w e k) e).2 := by
  rw [frames_add]
  rfl

theorem updates_no_reversal (c : ℚ) (pre : List ℚ) (w : World) (b s : Object3D)
    (h : w.HasObjects b s) (hd : AlongZ w.moveDirection) (hpre : ∀ t ∈ pre, 0 ≤ t)
    (hlt : w.distanceMoved + pre.sum / 1000 < 3) :
    (∃ b', (updates (Arith.exact c) w pre).HasObjects b'
      ⟨s.position.add (Arith.exact c) (Vector3.zero.addScaledVector (Arith.exact c) w.moveDirection (pre.sum / 1000)),
        s.turnsY⟩) ∧
    (updates (Arith.exact c) w pre).moveDirection = w.moveDirection ∧
    (updates (Arith.exact c) w pre).distanceMoved = w.distanceMoved + pre.sum / 1000 := by
  induction pre generalizing w b s with
  | nil =>
    refine ⟨⟨b, ?_⟩, rfl, by simp [updates]⟩
    have : s.position.add (Arith.exact c) (Vector3.zero.addScaledVector (Arith.exact c) w.moveDirection ([].sum / 1000))
        = s.position := by
      ext <;> simp [Vector3.add, Vector3.addScaledVector, Vector3.zero, Arith.exact]
    rw [this]
    exact h
  | cons t ts ih =>
    have ht : 0 ≤ t := hpre t (List.mem_cons_self _ _)
    have hts : ∀ u ∈ ts, 0 ≤ u := fun u hu => hpre u (List.mem_cons_of_mem _ hu)
    have hsum : 0 ≤ ts.sum := List.sum_nonneg hts
    have hlen : (Vector3.zero.addScaledVector (Arith.exact c) w.moveDirection (t / 1000)).length (Arith.exact c) = t / 1000 := by
      have habs : |t / 1000| = t / 1000 := abs_of_nonneg (by positivity)
      rcases hd with hd | hd
      · rw [hd, Vector3.length_scaled_up, habs]
      · rw [hd, Vector3.length_scaled_down, habs]
    rw [List.sum_cons] at hlt
    have hnot : ¬ (3 ≤ w.distanceMoved + t / 1000) := by
      rw [not_le]
      have : w.distanceMoved + t / 1000 ≤ w.distanceMoved + (t + ts.sum) / 1000 := by
        have : t / 1000 ≤ (t + ts.sum) / 1000 := by
          apply div_le_div_of_nonneg_right _ (by norm_num)
          linarith
        linarith
      linarith
    have hupd := update_of_shape c w b s h t
    rw [hlen] at hupd
    simp only [hnot, if_false] at hupd
    have hobj : (update (Arith.exact c) w t).2.HasObjects (b.rotateY (degToRad (Arith.exact c) (180 * (t / 1000))))
        { s with position :=
            s.position.add (Arith.exact c) (Vector3.zero.addScaledVector (Arith.exact c) w.moveDirection (t / 1000)) } := by
      rw [hupd]; rfl
    have hdir : (update (Arith.exact c) w t).2.moveDirection = w.moveDirection := by rw [hupd]
    have hdist : (update (Arith.exact c) w t).2.distanceMoved = w.distanceMoved + t / 1000 := by rw [hupd]
    obtain ⟨⟨b', hb'⟩, h2, h3⟩ := ih (update (Arith.exact c) w t).2 _ _ hobj (hdir ▸ hd) hts (by
      rw [hdist]
      have : w.distanceMoved + t / 1000 + ts.sum / 1000
          = w.distanceMoved + (t + ts.sum) / 1000 := by ring
      rw [this]; exact hlt)
    refine ⟨⟨b', ?_⟩, ?_, ?_⟩
    · simp only [updates, List.sum_cons]
      convert hb' using 2
      rw [hdir]
      ext <;> simp [Vector3.add, Vector3.addScaledVector, Vector3.zero, Arith.exact] <;> ring
    · simp only [updates]
      rw [h2, hdir]
    · simp only [updates, List.sum_cons]
      rw [h3, hdist]
      ring

theorem updates_reversal (c : ℚ) (pre : List ℚ) (last : ℚ) (w : World) (b s : Object3D)
    (hobj : w.HasObjects b s) (hd : AlongZ w.moveDirection) (hzero : w.distanceMoved = 0)
    (hpre : ∀ t ∈ pre, 0 ≤ t) (hlt : pre.sum / 1000 < 3) (hge : 3 ≤ (pre.sum + last) / 1000) :
    (∃ b', (updates (Arith.exact c) w (pre ++ [last])).HasObjects b'
      ⟨s.position.add (Arith.exact c) (Vector3.zero.addScaledVector (Arith.exact c) w.moveDirection ((pre.sum + last) / 1000)),
        s.turnsY⟩) ∧
    (updates (Arith.exact c) w (pre ++ [last])).moveDirection = w.moveDirection.negate ∧
    (updates (Arith.exact c) w (pre ++ [last])).distanceMoved = 0 := by
  have hlast : 0 ≤ last := by
    by_contra hneg
    rw [not_le] at hneg
    have : (pre.sum + last) / 1000 < pre.sum / 1000 :=
      div_lt_div_of_pos_right (by linarith) (by norm_num)
    linarith
  obtain ⟨⟨b', hb'⟩, h2, h3⟩ :=
    updates_no_reversal c pre w b s hobj hd hpre (by rw [hzero]; linarith)
  have hlen : (Vector3.zero.addScaledVector (Arith.exact c) (updates (Arith.exact c) w pre).moveDirection
      (last / 1000)).length (Arith.exact c) = last / 1000 := by
    have habs : |last / 1000| = last / 1000 := abs_of_nonneg (by positivity)
    rw [h2]
    rcases hd with hd | hd
    · rw [hd, Vector3.length_scaled_up, habs]
    · rw [hd, Vector3.length_scaled_down, habs]
  have hupd := update_of_shape c (updates (Arith.exact c) w pre) _ _ hb' last
  rw [hlen, h3, hzero, zero_add] at hupd
  have hreach : 3 ≤ pre.sum / 1000 + last / 1000 := by
    rw [← add_div]; exact hge
  simp only [hreach, if_true] at hupd
  have hrun : updates (Arith.exact c) w (pre ++ [last]) = (update (Arith.exact c) (updates (Arith.exact c) w pre) last).2 := by
    rw [updates_append]; rfl
  rw [hrun, hupd]
  refine ⟨⟨b'.rotateY (degToRad (Arith.exact c) (180 * (last / 1000))), ?_⟩, by simp only [h2], rfl⟩
  have hpos : (s.position.add (Arith.exact c) (Vector3.zero.addScaledVector (Arith.exact c)
      w.moveDirection (pre.sum / 1000))).add (Arith.exact c)
      (Vector3.zero.addScaledVector (Arith.exact c) w.moveDirection (last / 1000)) =
      s.position.add (Arith.exact c) (Vector3.zero.addScaledVector (Arith.exact c)
        w.moveDirection ((pre.sum + last) / 1000)) := by
    ext <;> simp [Vector3.add, Vector3.addScaledVector, Vector3.zero, Arith.exact] <;> ring
  simp only [HasObjects, h2, hpos]

/-! ## The sphere and the box, frame by frame -/

/-- C8: in every reachable state, the initial one included, the move direction is
(0,0,1) or (0,0,-1) and the distance moved is at least 0 and below 3; and a frame of any
frame time, of either sign, completes normally and leaves a state of which the same
holds. -/
theorem motion_invariant (c : ℚ) (w : World) (h : Reachable (Arith.exact c) w) :
    ((w.moveDirection = ⟨0, 0, 1⟩ ∨ w.moveDirection = ⟨0, 0, -1⟩) ∧
      0 ≤ w.distanceMoved ∧ w.distanceMoved < 3) ∧
    ∀ elapsedMS : ℚ, (update (Arith.exact c) w elapsedMS).1 = .ok () ∧
      ((update (Arith.exact c) w elapsedMS).2.moveDirection = ⟨0, 0, 1⟩ ∨
        (update (Arith.exact c) w elapsedMS).2.moveDirection = ⟨0, 0, -1⟩) ∧
      0 ≤ (update (Arith.exact c) w elapsedMS).2.distanceMoved ∧ (update (Arith.exact c) w elapsedMS).2.distanceMoved < 3 := by
  have hinv := inv_of_reachable h
  constructor
  · obtain ⟨_, _, -, -, -, -, hd, h0, h3, -⟩ := hinv
    exact ⟨hd, h0, h3⟩
  · intro e
    obtain ⟨hok, _, _, -, -, -, -, hd, h0, h3, -⟩ := inv_update c hinv e
    exact ⟨hok, hd, h0, h3⟩

theorem motion_invariant_witness :
    (initialized.moveDirection = ⟨0, 0, 1⟩ ∨ initialized.moveDirection = ⟨0, 0, -1⟩) ∧
      0 ≤ initialized.distanceMoved ∧ initialized.distanceMoved < 3 :=
  (motion_invariant 0 initialized Reachable.init).1

/-- C3, in exact arithmetic: in every reachable state a frame completes
normally and moves Sphere1 by the move direction held before the frame times
elapsedMS/1000, whether or not the frame reverses the direction; x stays -1, y stays 0.5,
and z changes by +elapsedMS/1000 when the direction was (0,0,1) and by -elapsedMS/1000
when it was (0,0,-1). -/
theorem update_moves_sphere (c : ℚ) (w : World) (h : Reachable (Arith.exact c) w) (elapsedMS : ℚ) :
    ∃ s s', w.object "Sphere1" = some s ∧ (update (Arith.exact c) w elapsedMS).1 = .ok () ∧
      (update (Arith.exact c) w elapsedMS).2.object "Sphere1" = some s' ∧
      s'.position = ⟨s.position.x + w.moveDirection.x * (elapsedMS / 1000),
        s.position.y + w.moveDirection.y * (elapsedMS / 1000),
        s.position.z + w.moveDirection.z * (elapsedMS / 1000)⟩ ∧
      s.position.x = -1 ∧ s.position.y = 1 / 2 ∧ s'.position.x = -1 ∧ s'.position.y = 1 / 2 ∧
      ((w.moveDirection = ⟨0, 0, 1⟩ ∧ s'.position.z = s.position.z + elapsedMS / 1000) ∨
        (w.moveDirection = ⟨0, 0, -1⟩ ∧ s'.position.z = s.position.z - elapsedMS / 1000)) := by
  obtain ⟨b, s, hobj, -, hx, hy, hd, -, -, -⟩ := inv_of_reachable h
  have hupd := update_of_shape c w b s hobj elapsedMS
  have hobj' : (update (Arith.exact c) w elapsedMS).2.HasObjects
      (b.rotateY (degToRad (Arith.exact c) (180 * (elapsedMS / 1000))))
      { s with position :=
          s.position.add (Arith.exact c) (Vector3.zero.addScaledVector (Arith.exact c) w.moveDirection (elapsedMS / 1000)) } := by
    rw [hupd]; rfl
  refine ⟨s, _, object_sphere hobj, by rw [hupd], object_sphere hobj', ?_, hx, hy, ?_, ?_, ?_⟩
  · ext <;> simp [Vector3.add, Vector3.addScaledVector, Vector3.zero, Arith.exact]
  · rcases hd with hd | hd <;> simp [hd, Vector3.add, Vector3.addScaledVector, Vector3.zero, Arith.exact, hx]
  · rcases hd with hd | hd <;> simp [hd, Vector3.add, Vector3.addScaledVector, Vector3.zero, Arith.exact, hy]
  · rcases hd with hd | hd
    · left
      exact ⟨hd, by simp [hd, Vector3.add, Vector3.addScaledVector, Vector3.zero, Arith.exact]⟩
    · right
      refine ⟨hd, ?_⟩
      simp [hd, Vector3.add, Vector3.addScaledVector, Vector3.zero, Arith.exact]
      ring

theorem update_moves_sphere_witness :
    ∃ s s', initialized.object "Sphere1" = some s ∧ (update (Arith.exact 0) initialized 500).1 = .ok () ∧
      (update (Arith.exact 0) initialized 500).2.object "Sphere1" = some s' ∧
      s'.position = ⟨s.position.x + initialized.moveDirection.x * (500 / 1000),
        s.position.y + initialized.moveDirection.y * (500 / 1000),
        s.position.z + initialized.moveDirection.z * (500 / 1000)⟩ ∧
      s.position.x = -1 ∧ s.position.y = 1 / 2 ∧ s'.position.x = -1 ∧ s'.position.y = 1 / 2 ∧
      ((initialized.moveDirection = ⟨0, 0, 1⟩ ∧ s'.position.z = s.position.z + 500 / 1000) ∨
        (initialized.moveDirection = ⟨0, 0, -1⟩ ∧ s'.position.z = s.position.z - 500 / 1000)) :=
  update_moves_sphere 0 initialized Reachable.init 500

/-- C7, in exact arithmetic: start a run of frames with non-negative frame
times in a reachable state whose distance moved is 0 (the start, or the state a reversal
leaves), moving in direction (0,0,σ), and let the last frame be the first at which the
distance accumulated over the run reaches 3. Then no frame before the last changes the
direction, and the distance moved counts the run so far; the last frame turns the
direction into (0,0,-σ) and resets the distance moved to 0, and its step is applied in
the old direction: the sphere ends at z + σ times the whole distance, so it has
travelled at least 3, and more than 3 by less than the last step. -/
theorem sphere_reverses_at_three (c : ℚ) (w : World) (h : Reachable (Arith.exact c) w)
    (hzero : w.distanceMoved = 0) (pre : List ℚ) (last : ℚ) (hpre : ∀ t ∈ pre, 0 ≤ t)
    (hlt : pre.sum / 1000 < 3) (hge : 3 ≤ (pre.sum + last) / 1000) :
    ∃ (σ : ℚ) (s s' : Object3D), (σ = 1 ∨ σ = -1) ∧ w.moveDirection = ⟨0, 0, σ⟩ ∧
      w.object "Sphere1" = some s ∧
      (∀ p, p <+: pre →
        (updates (Arith.exact c) w p).moveDirection = ⟨0, 0, σ⟩ ∧
        (updates (Arith.exact c) w p).distanceMoved = p.sum / 1000) ∧
      (updates (Arith.exact c) w (pre ++ [last])).moveDirection = ⟨0, 0, -σ⟩ ∧
      (updates (Arith.exact c) w (pre ++ [last])).distanceMoved = 0 ∧
      (updates (Arith.exact c) w (pre ++ [last])).object "Sphere1" = some s' ∧
      s'.position =
        ⟨s.position.x, s.position.y, s.position.z + σ * ((pre.sum + last) / 1000)⟩ ∧
      3 ≤ |s'.position.z - s.position.z| ∧ |s'.position.z - s.position.z| - 3 < last / 1000 := by
  obtain ⟨b, s, hobj, -, -, -, hd, -, -, -⟩ := inv_of_reachable h
  obtain ⟨σ, hσ, hdir⟩ : ∃ σ : ℚ, (σ = 1 ∨ σ = -1) ∧ w.moveDirection = ⟨0, 0, σ⟩ := by
    rcases hd with hd | hd
    · exact ⟨1, Or.inl rfl, hd⟩
    · exact ⟨-1, Or.inr rfl, hd⟩
  obtain ⟨⟨b', hb'⟩, h2, h3⟩ := updates_reversal c pre last w b s hobj hd hzero hpre hlt hge
  have hpos : s.position.add (Arith.exact c) (Vector3.zero.addScaledVector (Arith.exact c)
      w.moveDirection ((pre.sum + last) / 1000)) =
      ⟨s.position.x, s.position.y, s.position.z + σ * ((pre.sum + last) / 1000)⟩ := by
    rw [hdir]
    ext <;> simp [Vector3.add, Vector3.addScaledVector, Vector3.zero, Arith.exact]
  have habs : |s.position.z + σ * ((pre.sum + last) / 1000) - s.position.z| =
      (pre.sum + last) / 1000 := by
    have hT : (0 : ℚ) ≤ (pre.sum + last) / 1000 := by linarith
    rcases hσ with rfl | rfl
    · rw [show s.position.z + 1 * ((pre.sum + last) / 1000) - s.position.z =
        (pre.sum + last) / 1000 by ring]
      exact abs_of_nonneg hT
    · rw [show s.position.z + -1 * ((pre.sum + last) / 1000) - s.position.z =
        -((pre.sum + last) / 1000) by ring, abs_neg]
      exact abs_of_nonneg hT
  refine ⟨σ, s, _, hσ, hdir, object_sphere hobj, ?_, ?_, h3, object_sphere hb', hpos, ?_, ?_⟩
  · rintro p ⟨q, rfl⟩
    have hp : ∀ t ∈ p, 0 ≤ t := fun t ht => hpre t (List.mem_append_left _ ht)
    have hq : 0 ≤ q.sum := List.sum_nonneg fun t ht => hpre t (List.mem_append_right _ ht)
    rw [List.sum_append] at hlt
    have hple : p.sum / 1000 ≤ (p.sum + q.sum) / 1000 :=
      div_le_div_of_nonneg_right (by linarith) (by norm_num)
    obtain ⟨-, g2, g3⟩ := updates_no_reversal c p w b s hobj hd hp (by rw [hzero]; linarith)
    exact ⟨g2.trans hdir, by rw [g3, hzero, zero_add]⟩
  · rw [h2, hdir]
    simp [Vector3.negate]
  · simp only [hpos, habs]
    exact hge
  · simp only [hpos, habs]
    rw [add_div]; linarith

theorem sphere_reverses_at_three_witness :
    ∃ (σ : ℚ) (s s' : Object3D), (σ = 1 ∨ σ = -1) ∧ initialized.moveDirection = ⟨0, 0, σ⟩ ∧
      initialized.object "Sphere1" = some s ∧
      (∀ p, p <+: [1000, 1500] →
        (updates (Arith.exact 0) initialized p).moveDirection = ⟨0, 0, σ⟩ ∧
        (updates (Arith.exact 0) initialized p).distanceMoved = p.sum / 1000) ∧
      (updates (Arith.exact 0) initialized ([1000, 1500] ++ [1000])).moveDirection =
        ⟨0, 0, -σ⟩ ∧
      (updates (Arith.exact 0) initialized ([1000, 1500] ++ [1000])).distanceMoved = 0 ∧
      (updates (Arith.exact 0) initialized ([1000, 1500] ++ [1000])).object "Sphere1" =
        some s' ∧
      s'.position = ⟨s.position.x, s.position.y,
        s.position.z + σ * (((([1000, 1500] : List ℚ)).sum + 1000) / 1000)⟩ ∧
      3 ≤ |s'.position.z - s.position.z| ∧ |s'.position.z - s.position.z| - 3 < 1000 / 1000 :=
  sphere_reverses_at_three 0 initialized Reachable.init rfl [1000, 1500] 1000
    (by simp) (by norm_num) (by norm_num)

/-! ## Frames of equal length: the oscillation of the sphere -/

theorem frames_before_turn (e : ℚ) (he : 0 < e) (k : Nat) (hk : k < ⌈3000 / e⌉₊) :
    (k : ℚ) * (e / 1000) < 3 := by
  have h1 : (k : ℚ) * e < 3000 := (lt_div_iff₀ he).mp (Nat.lt_ceil.mp hk)
  linarith

theorem frames_at_turn (e : ℚ) (he : 0 < e) : 3 ≤ (⌈3000 / e⌉₊ : ℚ) * (e / 1000) := by
  have h1 : 3000 ≤ (⌈3000 / e⌉₊ : ℚ) * e := (div_le_iff₀ he).mp (Nat.le_ceil _)
  linarith

theorem half_period (c e : ℚ) (he : 0 < e) (w : World) (b s : Object3D)
    (hobj : w.HasObjects b s) (hd : AlongZ w.moveDirection) (hzero : w.distanceMoved = 0) :
    (∃ b', (frames (Arith.exact c) w e ⌈3000 / e⌉₊).HasObjects b'
      ⟨s.position.add (Arith.exact c) (Vector3.zero.addScaledVector (Arith.exact c) w.moveDirection
        (⌈3000 / e⌉₊ * e / 1000)), s.turnsY⟩) ∧
    (frames (Arith.exact c) w e ⌈3000 / e⌉₊).moveDirection = w.moveDirection.negate ∧
    (frames (Arith.exact c) w e ⌈3000 / e⌉₊).distanceMoved = 0 := by
  have hn : 0 < ⌈3000 / e⌉₊ := Nat.ceil_pos.mpr (by positivity)
  obtain ⟨k, hk⟩ : ∃ k, ⌈3000 / e⌉₊ = k + 1 := ⟨⌈3000 / e⌉₊ - 1, by omega⟩
  have hlt := frames_before_turn e he k (by omega)
  have hge := frames_at_turn e he
  rw [hk] at hge ⊢
  push_cast at hge ⊢
  have hsum : (List.replicate k e).sum = k * e := by
    rw [List.sum_replicate, nsmul_eq_mul]
  have hrev := updates_reversal c (List.replicate k e) e w b s hobj hd hzero
    (fun t ht => by rw [List.eq_of_mem_replicate ht]; exact he.le)
    (by rw [hsum]; linarith) (by rw [hsum]; linarith)
  rw [frames_eq_updates, List.replicate_succ']
  rw [hsum] at hrev
  have harg : ((k : ℚ) + 1) * e / 1000 = (k * e + e) / 1000 := by ring
  rw [harg]
  exact hrev

theorem full_period (c e : ℚ) (he : 0 < e) (w : World) (b s : Object3D)
    (hobj : w.HasObjects b s) (hd : AlongZ w.moveDirection) (hzero : w.distanceMoved = 0) :
    (∃ b', (frames (Arith.exact c) w e (2 * ⌈3000 / e⌉₊)).HasObjects b' s) ∧
    (frames (Arith.exact c) w e (2 * ⌈3000 / e⌉₊)).moveDirection = w.moveDirection ∧
    (frames (Arith.exact c) w e (2 * ⌈3000 / e⌉₊)).distanceMoved = 0 := by
  obtain ⟨⟨b1, hb1⟩, hd1, hz1⟩ := half_period c e he w b s hobj hd hzero
  have hd1' : AlongZ (frames (Arith.exact c) w e ⌈3000 / e⌉₊).moveDirection := by
    rw [hd1]
    rcases hd with hd | hd <;> simp [hd, AlongZ, Vector3.negate]
  obtain ⟨⟨b2, hb2⟩, hd2, hz2⟩ := half_period c e he _ b1 _ hb1 hd1' hz1
  rw [two_mul, frames_add]
  refine ⟨⟨b2, ?_⟩, ?_, hz2⟩
  · convert hb2 using 1
    rw [hd1]
    cases s
    simp only [Object3D.mk.injEq, and_true]
    ext <;> simp [Vector3.add, Vector3.addScaledVector, Vector3.zero, Arith.exact, Vector3.negate]
  · rw [hd2, hd1]
    simp [Vector3.negate]

theorem update_motion_congr (c e : ℚ) (w w' : World) (b b' s : Object3D)
    (h : w.HasObjects b s) (h' : w'.HasObjects b' s)
    (hd : w'.moveDirection = w.moveDirection) (hdist : w'.distanceMoved = w.distanceMoved) :
    ∃ b1 b1' s1, (update (Arith.exact c) w e).2.HasObjects b1 s1 ∧ (update (Arith.exact c) w' e).2.HasObjects b1' s1 ∧
      (update (Arith.exact c) w' e).2.moveDirection = (update (Arith.exact c) w e).2.moveDirection ∧
      (update (Arith.exact c) w' e).2.distanceMoved = (update (Arith.exact c) w e).2.distanceMoved := by
  rw [update_of_shape c w b s h e, update_of_shape c w' b' s h' e, hd, hdist]
  exact ⟨_, _, _, rfl, rfl, rfl, rfl⟩

theorem frames_periodic (c e : ℚ) (he : 0 < e) (m : Nat) :
    ∃ b b' s, (frames (Arith.exact c) initialized e m).HasObjects b s ∧
      (frames (Arith.exact c) initialized e (m + 2 * ⌈3000 / e⌉₊)).HasObjects b' s ∧
      (frames (Arith.exact c) initialized e (m + 2 * ⌈3000 / e⌉₊)).moveDirection =
        (frames (Arith.exact c) initialized e m).moveDirection ∧
      (frames (Arith.exact c) initialized e (m + 2 * ⌈3000 / e⌉₊)).distanceMoved =
        (frames (Arith.exact c) initialized e m).distanceMoved := by
  induction m with
  | zero =>
    obtain ⟨⟨b', hb'⟩, hd, hz⟩ := full_period c e he initialized _ _ initialized_hasObjects
      (Or.inl rfl) rfl
    rw [Nat.zero_add]
    exact ⟨_, b', _, initialized_hasObjects, hb', hd, hz⟩
  | succ k ih =>
    obtain ⟨b, b', s, h1, h2, h3, h4⟩ := ih
    obtain ⟨b1, b1', s1, g1, g2, g3, g4⟩ := update_motion_congr c e _ _ b b' s h1 h2 h3 h4
    have hidx : k + 1 + 2 * ⌈3000 / e⌉₊ = (k + 2 * ⌈3000 / e⌉₊) + 1 := by omega
    rw [hidx, frames_succ, frames_succ]
    exact ⟨b1, b1', s1, g1, g2, g3, g4⟩

theorem frames_range (c e : ℚ) (he : 0 < e) (m : Nat) :
    ∃ b s, (frames (Arith.exact c) initialized e m).HasObjects b s ∧ ∃ k : Nat, k < ⌈3000 / e⌉₊ ∧
      (frames (Arith.exact c) initialized e m).distanceMoved = k * (e / 1000) ∧
      (((frames (Arith.exact c) initialized e m).moveDirection = ⟨0, 0, 1⟩ ∧
          s.position.z = k * (e / 1000)) ∨
        ((frames (Arith.exact c) initialized e m).moveDirection = ⟨0, 0, -1⟩ ∧
          s.position.z = (⌈3000 / e⌉₊ - k : ℚ) * (e / 1000))) := by
  have hn : 0 < ⌈3000 / e⌉₊ := Nat.ceil_pos.mpr (by positivity)
  have habs : |e / 1000| = e / 1000 := abs_of_nonneg (by positivity)
  induction m with
  | zero =>
    refine ⟨_, _, initialized_hasObjects, 0, hn, ?_, Or.inl ⟨rfl, ?_⟩⟩
    · simp [frames, initialized]
    · simp
  | succ j ih =>
    obtain ⟨b, s, hobj, k, hk, hdist, hcase⟩ := ih
    have hupd := update_of_shape c _ b s hobj e
    rw [frames_succ]
    by_cases hturn : k + 1 < ⌈3000 / e⌉₊
    · have hlt := frames_before_turn e he (k + 1) hturn
      push_cast at hlt
      rcases hcase with ⟨hdir, hz⟩ | ⟨hdir, hz⟩
      · rw [hdir, Vector3.length_scaled_up, habs, hdist] at hupd
        have hnot : ¬ (3 ≤ (k : ℚ) * (e / 1000) + e / 1000) := by linarith
        simp only [hnot, if_false] at hupd
        rw [hupd]
        refine ⟨_, _, rfl, k + 1, hturn, ?_, Or.inl ⟨rfl, ?_⟩⟩
        · push_cast; ring
        · simp [Vector3.add, Vector3.addScaledVector, Vector3.zero, Arith.exact, hz]; ring
      · rw [hdir, Vector3.length_scaled_down, habs, hdist] at hupd
        have hnot : ¬ (3 ≤ (k : ℚ) * (e / 1000) + e / 1000) := by linarith
        simp only [hnot, if_false] at hupd
        rw [hupd]
        refine ⟨_, _, rfl, k + 1, hturn, ?_, Or.inr ⟨rfl, ?_⟩⟩
        · push_cast; ring
        · simp [Vector3.add, Vector3.addScaledVector, Vector3.zero, Arith.exact, hz]; ring
    · have hkn : ⌈3000 / e⌉₊ = k + 1 := by omega
      have hge := frames_at_turn e he
      rw [hkn] at hge ⊢
      push_cast at hge ⊢
      rcases hcase with ⟨hdir, hz⟩ | ⟨hdir, hz⟩
      · rw [hdir, Vector3.length_scaled_up, habs, hdist] at hupd
        have hyes : 3 ≤ (k : ℚ) * (e / 1000) + e / 1000 := by linarith
        simp only [hyes, if_true] at hupd
        rw [hupd]
        refine ⟨_, _, rfl, 0, by omega, by simp, Or.inr ⟨by simp [Vector3.negate], ?_⟩⟩
        simp [Vector3.add, Vector3.addScaledVector, Vector3.zero, Arith.exact, hz]; ring
      · rw [hdir, Vector3.length_scaled_down, habs, hdist] at hupd
        have hyes : 3 ≤ (k : ℚ) * (e / 1000) + e / 1000 := by linarith
        simp only [hyes, if_true] at hupd
        rw [hupd]
        rw [hkn] at hz
        push_cast at hz
        refine ⟨_, _, rfl, 0, by omega, by simp, Or.inl ⟨by simp [Vector3.negate], ?_⟩⟩
        simp [Vector3.add, Vector3.addScaledVector, Vector3.zero, Arith.exact, hz]

/-- C2: with one positive frame time elapsedMS on every frame and n = ceil(3000 /
elapsedMS), the run from the initial state (Sphere1 at (-1, 0.5, 0), direction (0,0,1),
distance moved 0) has the sphere at z = n * elapsedMS / 1000 with the direction reversed
after n frames; after 2n frames the sphere, the direction and the distance moved are
what they were at the start; the three are the same after m + 2n frames as after m
frames, for every m; and z stays between 0 and n * elapsedMS / 1000 throughout. -/
theorem sphere_oscillates (c elapsedMS : ℚ) (hpos : 0 < elapsedMS) :
    initialized.object "Sphere1" = some ⟨⟨-1, 1 / 2, 0⟩, []⟩ ∧
    initialized.moveDirection = ⟨0, 0, 1⟩ ∧ initialized.distanceMoved = 0 ∧
    (frames (Arith.exact c) initialized elapsedMS ⌈3000 / elapsedMS⌉₊).object "Sphere1" =
      some ⟨⟨-1, 1 / 2, ⌈3000 / elapsedMS⌉₊ * elapsedMS / 1000⟩, []⟩ ∧
    (frames (Arith.exact c) initialized elapsedMS ⌈3000 / elapsedMS⌉₊).moveDirection = ⟨0, 0, -1⟩ ∧
    (frames (Arith.exact c) initialized elapsedMS (2 * ⌈3000 / elapsedMS⌉₊)).object "Sphere1" =
      initialized.object "Sphere1" ∧
    (frames (Arith.exact c) initialized elapsedMS (2 * ⌈3000 / elapsedMS⌉₊)).moveDirection =
      initialized.moveDirection ∧
    (frames (Arith.exact c) initialized elapsedMS (2 * ⌈3000 / elapsedMS⌉₊)).distanceMoved =
      initialized.distanceMoved ∧
    (∀ m : Nat,
      (frames (Arith.exact c) initialized elapsedMS (m + 2 * ⌈3000 / elapsedMS⌉₊)).object "Sphere1" =
        (frames (Arith.exact c) initialized elapsedMS m).object "Sphere1" ∧
      (frames (Arith.exact c) initialized elapsedMS (m + 2 * ⌈3000 / elapsedMS⌉₊)).moveDirection =
        (frames (Arith.exact c) initialized elapsedMS m).moveDirection ∧
      (frames (Arith.exact c) initialized elapsedMS (m + 2 * ⌈3000 / elapsedMS⌉₊)).distanceMoved =
        (frames (Arith.exact c) initialized elapsedMS m).distanceMoved) ∧
    ∀ m : Nat, ∃ s, (frames (Arith.exact c) initialized elapsedMS m).object "Sphere1" = some s ∧
      0 ≤ s.position.z ∧ s.position.z ≤ ⌈3000 / elapsedMS⌉₊ * elapsedMS / 1000 := by
  have hperiodic := frames_periodic c elapsedMS hpos
  have hstart : initialized.object "Sphere1" = some ⟨⟨-1, 1 / 2, 0⟩, []⟩ :=
    object_sphere initialized_hasObjects
  refine ⟨hstart, rfl, rfl, ?_, ?_, ?_, ?_, ?_, fun m => ?_, fun m => ?_⟩
  · obtain ⟨⟨b', hb'⟩, -, -⟩ := half_period c elapsedMS hpos initialized _ _
      initialized_hasObjects (Or.inl rfl) rfl
    rw [object_sphere hb']
    simp only [Option.some.injEq, Object3D.mk.injEq, and_true]
    ext <;> simp [Vector3.add, Vector3.addScaledVector, Vector3.zero, Arith.exact, initialized]
  · obtain ⟨-, hd, -⟩ := half_period c elapsedMS hpos initialized _ _
      initialized_hasObjects (Or.inl rfl) rfl
    rw [hd]
    simp [initialized, Vector3.negate]
  · obtain ⟨_, _, _, h1, h2, -, -⟩ := hperiodic 0
    rw [Nat.zero_add] at h2
    rw [object_sphere h2]
    exact (object_sphere h1).symm
  · obtain ⟨_, _, _, -, -, h3, -⟩ := hperiodic 0
    rw [Nat.zero_add] at h3
    exact h3
  · obtain ⟨_, _, _, -, -, -, h4⟩ := hperiodic 0
    rw [Nat.zero_add] at h4
    exact h4
  · obtain ⟨_, _, _, h1, h2, h3, h4⟩ := hperiodic m
    exact ⟨(object_sphere h2).trans (object_sphere h1).symm, h3, h4⟩
  · obtain ⟨b, s, hobj, k, hk, -, hcase⟩ := frames_range c elapsedMS hpos m
    have hstep : 0 < elapsedMS / 1000 := by positivity
    have hk0 : (0 : ℚ) ≤ k := Nat.cast_nonneg k
    have hkn : (k : ℚ) ≤ ⌈3000 / elapsedMS⌉₊ := by exact_mod_cast hk.le
    have hn : ⌈3000 / elapsedMS⌉₊ * elapsedMS / 1000 =
        (⌈3000 / elapsedMS⌉₊ : ℚ) * (elapsedMS / 1000) := by ring
    refine ⟨s, object_sphere hobj, ?_, ?_⟩
    · rcases hcase with ⟨-, hz⟩ | ⟨-, hz⟩
      · rw [hz]; positivity
      · rw [hz]; exact mul_nonneg (by linarith) hstep.le
    · rw [hn]
      rcases hcase with ⟨-, hz⟩ | ⟨-, hz⟩
      · rw [hz]; exact mul_le_mul_of_nonneg_right hkn hstep.le
      · rw [hz]; exact mul_le_mul_of_nonneg_right (by linarith) hstep.le

theorem sphere_oscillates_witness :
    (frames (Arith.exact 0) initialized 1000 ⌈(3000 : ℚ) / 1000⌉₊).object "Sphere1" =
      some ⟨⟨-1, 1 / 2, ⌈(3000 : ℚ) / 1000⌉₊ * 1000 / 1000⟩, []⟩ ∧
    (frames (Arith.exact 0) initialized 1000 ⌈(3000 : ℚ) / 1000⌉₊).moveDirection = ⟨0, 0, -1⟩ :=
  ⟨(sphere_oscillates 0 1000 (by norm_num)).2.2.2.1,
    (sphere_oscillates 0 1000 (by norm_num)).2.2.2.2.1⟩

/-! ## The same frames in binary64 arithmetic -/

theorem float64_after_100 :
    (update Arith.float64 initialized 100).2.moveDirection = ⟨0, 0, 1⟩ ∧
    ((update Arith.float64 initialized 100).2.object "Sphere1").map (fun s => s.position) =
      some ⟨-1, 1 / 2, 3602879701896397 / 36028797018963968⟩ ∧
    ((update Arith.float64 (update Arith.float64 initialized 100).2 200).2.object
        "Sphere1").map (fun s => s.position) =
      some ⟨-1, 1 / 2, 1351079888211149 / 4503599627370496⟩ ∧
    (1351079888211149 / 4503599627370496 : ℚ) ≠
      3602879701896397 / 36028797018963968 + 1 * (200 / 1000) ∧
    (1351079888211149 / 4503599627370496 : ℚ) ≠
      3602879701896397 / 36028797018963968 + 1 * Arith.float64.div 200 1000 := by
  decide!

/-- C3, as stated, fails in the arithmetic of the code: from the initial state a frame
of 100 ms leaves Sphere1 at z = 0.1 (the binary64 number) still moving in direction
(0,0,1), and a frame of 200 ms then leaves it at z = 0.30000000000000004; so this
second frame does not change z by the z of the direction times elapsedMS/1000, whether
the quotient is 200/1000 itself or the binary64 quotient of 200 by 1000. -/
theorem update_moves_sphere_float64 :
    Reachable Arith.float64 (update Arith.float64 initialized 100).2 ∧
    (update Arith.float64 initialized 100).2.moveDirection = ⟨0, 0, 1⟩ ∧
    ((update Arith.float64 initialized 100).2.object "Sphere1").map (fun s => s.position) =
      some ⟨-1, 1 / 2, 3602879701896397 / 36028797018963968⟩ ∧
    ((update Arith.float64 (update Arith.float64 initialized 100).2 200).2.object
        "Sphere1").map (fun s => s.position) =
      some ⟨-1, 1 / 2, 1351079888211149 / 4503599627370496⟩ ∧
    ¬ ∃ s s', (update Arith.float64 initialized 100).2.object "Sphere1" = some s ∧
      (update Arith.float64 (update Arith.float64 initialized 100).2 200).2.object "Sphere1" =
        some s' ∧
      (s'.position.z = s.position.z +
          (update Arith.float64 initialized 100).2.moveDirection.z * (200 / 1000) ∨
        s'.position.z = s.position.z +
          (update Arith.float64 initialized 100).2.moveDirection.z *
            Arith.float64.div 200 1000) := by
  obtain ⟨hd, h1, h2, hne, hne'⟩ := float64_after_100
  refine ⟨Reachable.update 100 Reachable.init, hd, h1, h2, ?_⟩
  rintro ⟨s, s', hs, hs', hz⟩
  rw [hs] at h1
  rw [hs'] at h2
  simp only [Option.map_some', Option.some.injEq] at h1 h2
  rw [h1, h2, hd] at hz
  rcases hz with hz | hz
  · exact hne hz
  · exact hne' hz

/-- C7, as stated, fails in the arithmetic of the code: over the four frames of 300,
2100, 300 and 300 ms the distance accumulated reaches 3, whether counted as the total of
the frame times over 1000 or as the exact total of the four binary64 steps, yet the
fourth frame does not reverse the direction: the distance moved and the sphere's z stand
at 2.9999999999999996, and the reversal comes with the next frame. Ten frames of 300 ms
do the same: the reversal comes with the eleventh. -/
theorem sphere_reversal_float64 :
    (([300, 2100, 300, 300] : List ℚ).sum / 1000 = 3 ∧
      ([300, 2100] : List ℚ).sum / 1000 < 3 ∧ ([300, 2100, 300] : List ℚ).sum / 1000 < 3) ∧
    3 ≤ (([300, 2100, 300, 300] : List ℚ).map (fun t => Arith.float64.div t 1000)).sum ∧
    (updates Arith.float64 initialized [300, 2100, 300, 300]).moveDirection = ⟨0, 0, 1⟩ ∧
    (updates Arith.float64 initialized [300, 2100, 300, 300]).moveDirection =
      initialized.moveDirection ∧
    (updates Arith.float64 initialized [300, 2100, 300, 300]).distanceMoved =
      6755399441055743 / 2251799813685248 ∧
    ((updates Arith.float64 initialized [300, 2100, 300, 300]).object "Sphere1").map
      (fun s => s.position) = some ⟨-1, 1 / 2, 6755399441055743 / 2251799813685248⟩ ∧
    (6755399441055743 / 2251799813685248 : ℚ) < 3 ∧
    (updates Arith.float64 initialized [300, 2100, 300, 300, 100]).moveDirection =
      ⟨0, 0, -1⟩ ∧
    (frames Arith.float64 initialized 300 10).moveDirection = ⟨0, 0, 1⟩ ∧
    (frames Arith.float64 initialized 300 10).distanceMoved =
      6755399441055743 / 2251799813685248 ∧
    (frames Arith.float64 initialized 300 11).moveDirection = ⟨0, 0, -1⟩ := by
  decide!

end World

/-! ## The resize wrapper -/

namespace ThreeJSEngine

/-- C5: for a canvas whose display height is not 0, `render` resizes exactly when the
drawing-buffer size differs from the display size. If it differs, the renderer gets one
`setSize(clientWidth, clientHeight, false)` call, takes that size, and the camera's
aspect becomes clientWidth / clientHeight; if not, the renderer's size, the canvas and
the camera stay as they are. Either way the renderer then gets one `render` call, with
the scene and the camera. -/
theorem render_resizes_on_demand {σ : Type} (e : ThreeJSEngine σ) (scene : σ) (camera : Camera)
    (hh : e.renderer.domElement.clientHeight ≠ 0) :
    ((e.renderer.domElement.width ≠ e.renderer.domElement.clientWidth ∨
        e.renderer.domElement.height ≠ e.renderer.domElement.clientHeight) →
      (e.render scene camera).2 = { camera with
        aspect := some ((e.renderer.domElement.clientWidth : ℚ) /
          e.renderer.domElement.clientHeight) } ∧
      (e.render scene camera).1.renderer.width = e.renderer.domElement.clientWidth ∧
      (e.render scene camera).1.renderer.height = e.renderer.domElement.clientHeight ∧
      (e.render scene camera).1.renderer.domElement = { e.renderer.domElement with
        width := e.renderer.domElement.clientWidth
        height := e.renderer.domElement.clientHeight } ∧
      (e.render scene camera).1.renderer.calls = e.renderer.calls ++
        [.setSize e.renderer.domElement.clientWidth e.renderer.domElement.clientHeight false,
          .render scene (e.render scene camera).2]) ∧
    (¬ (e.renderer.domElement.width ≠ e.renderer.domElement.clientWidth ∨
        e.renderer.domElement.height ≠ e.renderer.domElement.clientHeight) →
      (e.render scene camera).2 = camera ∧
      (e.render scene camera).1.renderer.width = e.renderer.width ∧
      (e.render scene camera).1.renderer.height = e.renderer.height ∧
      (e.render scene camera).1.renderer.domElement = e.renderer.domElement ∧
      (e.render scene camera).1.renderer.calls = e.renderer.calls ++ [.render scene camera]) := by
  have hq : ((e.renderer.domElement.clientHeight : ℕ) : ℚ) ≠ 0 := by exact_mod_cast hh
  constructor
  · intro hdiff
    have hneed : (e.renderer.domElement.width != e.renderer.domElement.clientWidth ||
        e.renderer.domElement.height != e.renderer.domElement.clientHeight) = true := by
      simpa using hdiff
    simp [render, resizeRendererToDisplaySize, hneed, WebGLRenderer.setSize,
      WebGLRenderer.render, Camera.updateProjectionMatrix, jsDiv, hh]
  · intro hsame
    have hneed : (e.renderer.domElement.width != e.renderer.domElement.clientWidth ||
        e.renderer.domElement.height != e.renderer.domElement.clientHeight) = false := by
      simpa using hsame
    simp [render, resizeRendererToDisplaySize, hneed, WebGLRenderer.render]

theorem render_resizes_on_demand_witness :
    ((initialized ⟨300, 150, 800, 600⟩ : ThreeJSEngine Unit).render ()
        World.createPerspectiveCamera).2.aspect = some (((800 : ℕ) : ℚ) / ((600 : ℕ) : ℚ)) ∧
    ((initialized ⟨300, 150, 800, 600⟩ : ThreeJSEngine Unit).render ()
        World.createPerspectiveCamera).1.renderer.width = 800 :=
  ⟨congrArg Camera.aspect ((render_resizes_on_demand (initialized ⟨300, 150, 800, 600⟩) ()
      World.createPerspectiveCamera (by decide)).1 (by decide)).1,
    ((render_resizes_on_demand (initialized ⟨300, 150, 800, 600⟩) ()
      World.createPerspectiveCamera (by decide)).1 (by decide)).2.1⟩

end ThreeJSEngine

end STEMCamp
